import Mathlib

/-!
Shallow embedding of the resilient API-gateway core of
`templates/api-client-pattern.py`: the TTL cache (`SimpleCache`), the retry
engine (`retry_with_backoff`), the envelope-building tools (`api_get`,
`api_post`, `batch_api_requests`), and theorems settling the spec claims.
Python `dict`s are modelled as association lists with unique keys, Python
`float` time/delay values as `Rat`, and decoded JSON bodies as `JsonV`.
-/

set_option autoImplicit false

namespace ApiClientPattern

/-- A decoded JSON value, the payload type that the Python code passes around
as `Any` (the result of `response.json()`). -/
inductive JsonV where
  | null
  | bool (b : Bool)
  | num (n : Int)
  | str (s : String)
  | arr (elems : List JsonV)
  | obj (fields : List (String × JsonV))

/-- Python truthiness of a decoded JSON value, as used by `if cached:` in
`api_get`: `None`, `False`, `0`, `""`, `[]` and `{}` are falsy. -/
def JsonV.truthy : JsonV → Bool
  | .null => false
  | .bool b => b
  | .num n => n != 0
  | .str s => s.length != 0
  | .arr elems => elems.length != 0
  | .obj fields => fields.length != 0

/-- Python truthiness of an `Optional` value (`None` is falsy, otherwise the
truthiness of the value), as used on the result of `cache.get`. -/
def pyTruthyOpt : Option JsonV → Bool
  | none => false
  | some v => v.truthy

/-- Lookup in a Python dict modelled as an association list
(`d[k]` / `d.get(k)`). -/
def dictGet? {α : Type} (d : List (String × α)) (k : String) : Option α :=
  (d.find? (fun kv => kv.1 == k)).map Prod.snd

/-- Python `k in d` membership test. -/
def dictContains {α : Type} (d : List (String × α)) (k : String) : Bool :=
  d.any (fun kv => kv.1 == k)

/-- Python `d[k] = v`: overwrite the existing entry for `k`, or append a new
one (dict keys are unique, so at most one entry is rewritten). -/
def dictSet {α : Type} (d : List (String × α)) (k : String) (v : α) :
    List (String × α) :=
  if dictContains d k then d.map (fun kv => if kv.1 == k then (k, v) else kv)
  else d ++ [(k, v)]

/-- Python `del d[k]`: remove the entry for `k` (the first one; with unique
keys there is at most one). -/
def dictDel {α : Type} (d : List (String × α)) (k : String) : List (String × α) :=
  d.eraseP (fun kv => kv.1 == k)

/-- Python `pattern in key`: substring containment on strings. -/
def strContains (key pat : String) : Bool :=
  decide (pat.data <:+: key.data)

/-- `SimpleCache`: time-based cache for API responses. `cache` and
`timestamps` mirror the two Python dicts keyed by the same key set. -/
structure SimpleCache where
  ttl : Rat
  cache : List (String × JsonV)
  timestamps : List (String × Rat)

/-- `SimpleCache.get`: return the cached value if not expired; an expired
entry is deleted from both dicts and `None` is returned. `now` stands for
`time.time()`. A missing timestamp (impossible for caches built by `set`,
where Python would raise `KeyError`) defaults to `0`. -/
def SimpleCache.get (c : SimpleCache) (key : String) (now : Rat) :
    Option JsonV × SimpleCache :=
  match dictGet? c.cache key with
  | some v =>
    if now - (dictGet? c.timestamps key).getD 0 < c.ttl then (some v, c)
    else (none, { c with cache := dictDel c.cache key,
                         timestamps := dictDel c.timestamps key })
  | none => (none, c)

/-- `SimpleCache.set`: store a value together with the current time. -/
def SimpleCache.set (c : SimpleCache) (key : String) (value : JsonV)
    (now : Rat) : SimpleCache :=
  { c with cache := dictSet c.cache key value,
           timestamps := dictSet c.timestamps key now }

/-- `SimpleCache.invalidate`: with a truthy (non-empty) pattern, delete every
key containing the pattern as a substring; with `None` or an empty pattern
(both falsy in Python), clear the whole store. -/
def SimpleCache.invalidate (c : SimpleCache) (pattern : Option String) :
    SimpleCache :=
  match pattern with
  | some p =>
    if p.length != 0 then
      let keysToDelete := (c.cache.map Prod.fst).filter (fun k => strContains k p)
      { c with cache := c.cache.filter (fun kv => !(keysToDelete.contains kv.1)),
               timestamps :=
                 c.timestamps.filter (fun kv => !(keysToDelete.contains kv.1)) }
    else { c with cache := [], timestamps := [] }
  | none => { c with cache := [], timestamps := [] }

/-- The exceptions the Python code distinguishes: `httpx.TimeoutException`,
`httpx.NetworkError`, `httpx.HTTPStatusError` (carrying the response status
and body text), and any other exception (carrying `str(e)`). -/
inductive PyErr where
  | timeout
  | networkError
  | httpStatusError (status : Nat) (text : String)
  | other (msg : String)

/-- Python `str(e)` for the modelled exceptions (for HTTP status errors only
the status matters downstream; any rendering is faithful here). -/
def PyErr.str : PyErr → String
  | .timeout => "timeout"
  | .networkError => "network error"
  | .httpStatusError status _ => "HTTP status " ++ toString status
  | .other msg => msg

/-- An error class the retry loop recovers from: timeout and network errors,
and HTTP status errors outside [400,500). Uncaught (`other`) exceptions and
4xx status errors are not retryable. -/
def retryableErr : PyErr → Bool
  | .timeout => true
  | .networkError => true
  | .httpStatusError status _ => !(400 ≤ status && status < 500)
  | .other _ => false

/-- Observable outcome of `retry_with_backoff`: the returned value or the
raised exception, the number of times `func` was invoked, and the total time
spent in `asyncio.sleep`. -/
structure RWBOut where
  result : Except PyErr JsonV
  calls : Nat
  slept : Rat

/-- Python `raise last_exception` at the end of the loop; when
`last_exception` is still `None` (only possible for `max_retries = 0`) Python
raises a `TypeError`, modelled as an `other` error. -/
def pyRaiseLast (lastExc : Option PyErr) : PyErr :=
  lastExc.getD (.other "TypeError: exceptions must derive from BaseException")

/-- The `for attempt in range(max_retries)` loop of `retry_with_backoff`,
indexed by the number of loop iterations still to run (`remaining`, which is
`max_retries - attempt`); `func n` is the outcome of the `n`-th invocation of
the zero-argument operation. The Python guard `attempt < max_retries - 1`
holds iff a further iteration remains, i.e. iff `remaining ≠ 0` after
destructuring `remaining + 1`. -/
def retryLoop (func : Nat → Except PyErr JsonV) :
    Nat → Nat → Rat → Rat → Option PyErr → Nat → Rat → RWBOut
  | 0, _, _, _, lastExc, calls, slept =>
    ⟨.error (pyRaiseLast lastExc), calls, slept⟩
  | remaining + 1, attempt, delay, base, _, calls, slept =>
    match func attempt with
    | .ok v => ⟨.ok v, calls + 1, slept⟩
    | .error .timeout =>
      if remaining != 0 then
        retryLoop func remaining (attempt + 1) (delay * base) base
          (some .timeout) (calls + 1) (slept + delay)
      else
        retryLoop func remaining (attempt + 1) delay base
          (some .timeout) (calls + 1) slept
    | .error .networkError =>
      if remaining != 0 then
        retryLoop func remaining (attempt + 1) (delay * base) base
          (some .networkError) (calls + 1) (slept + delay)
      else
        retryLoop func remaining (attempt + 1) delay base
          (some .networkError) (calls + 1) slept
    | .error (.httpStatusError status text) =>
      if 400 ≤ status && status < 500 then
        ⟨.error (.httpStatusError status text), calls + 1, slept⟩
      else if remaining != 0 then
        retryLoop func remaining (attempt + 1) (delay * base) base
          (some (.httpStatusError status text)) (calls + 1) (slept + delay)
      else
        retryLoop func remaining (attempt + 1) delay base
          (some (.httpStatusError status text)) (calls + 1) slept
    | .error (.other msg) => ⟨.error (.other msg), calls + 1, slept⟩

/-- `retry_with_backoff(func, max_retries, initial_delay, exponential_base)`:
run `func` up to `max_retries` times, sleeping `delay` (multiplied by
`exponential_base` after each sleep) between attempts; 4xx HTTP status errors
and uncaught exceptions propagate immediately; after the last attempt the
last caught exception is re-raised. -/
def retry_with_backoff (func : Nat → Except PyErr JsonV)
    (max_retries : Nat := 3) (initial_delay : Rat := 1)
    (exponential_base : Rat := 2) : RWBOut :=
  retryLoop func max_retries 0 initial_delay exponential_base none 0 0

/-- The response dict a tool returns: each `Option` field is `some` exactly
when the Python dict carries the corresponding key. -/
structure Envelope where
  success : Bool
  data : Option JsonV := none
  error : Option String := none
  message : Option String := none
  endpoint : Option String := none
  from_cache : Option Bool := none
  timestamp : Option String := none

/-- The live-request path of `api_get`: `retry_with_backoff(make_request,
max_retries=Config.MAX_RETRIES)` with the retry engine's default delay and
base, writing a successful body back into the cache when `use_cache` holds,
and mapping exceptions to error envelopes. `func n` is the outcome of the
`n`-th invocation of `make_request`, `nowIso` stands for
`datetime.now().isoformat()`. -/
def apiGetLive (endpoint : String) (use_cache : Bool)
    (func : Nat → Except PyErr JsonV) (max_retries : Nat) (c : SimpleCache)
    (now : Rat) (nowIso : String) : Envelope × SimpleCache :=
  let cache_key := "GET:" ++ endpoint
  match (retry_with_backoff func max_retries).result with
  | .ok data =>
    let c2 := if use_cache then c.set cache_key data now else c
    ({ success := true, data := some data, from_cache := some false,
       timestamp := some nowIso }, c2)
  | .error (.httpStatusError status text) =>
    ({ success := false, error := some ("HTTP " ++ toString status),
       message := some text, endpoint := some endpoint }, c)
  | .error e =>
    ({ success := false, error := some e.str, endpoint := some endpoint }, c)

/-- `api_get(endpoint, use_cache)`: probe the cache under `"GET:{endpoint}"`
first — the hit branch is guarded by Python truthiness of the cached value —
and otherwise fall through to the live-request path. Returns the envelope and
the resulting cache state. -/
def api_get (endpoint : String) (use_cache : Bool)
    (func : Nat → Except PyErr JsonV) (max_retries : Nat) (c : SimpleCache)
    (now : Rat) (nowIso : String) : Envelope × SimpleCache :=
  let cache_key := "GET:" ++ endpoint
  if use_cache then
    let probe := c.get cache_key now
    if pyTruthyOpt probe.1 then
      ({ success := true, data := probe.1, from_cache := some true,
         timestamp := some nowIso }, probe.2)
    else apiGetLive endpoint use_cache func max_retries probe.2 now nowIso
  else apiGetLive endpoint use_cache func max_retries c now nowIso

/-- `api_post(endpoint, data, invalidate_cache)`: live request with retry; on
success, invalidate cache entries matching `endpoint.split('/')[1]` when the
endpoint contains a slash (else the endpoint itself); errors map to envelopes
carrying no `endpoint` field. The request body `_data` only flows into the
upstream call, which `func` models. -/
def api_post (endpoint : String) (_data : JsonV) (invalidate_cache : Bool)
    (func : Nat → Except PyErr JsonV) (max_retries : Nat) (c : SimpleCache)
    (nowIso : String) : Envelope × SimpleCache :=
  match (retry_with_backoff func max_retries).result with
  | .ok result =>
    let c2 :=
      if invalidate_cache then
        c.invalidate (some (if endpoint.data.contains '/' then
          ((endpoint.splitOn "/").drop 1).headD "" else endpoint))
      else c
    ({ success := true, data := some result, timestamp := some nowIso }, c2)
  | .error (.httpStatusError status text) =>
    ({ success := false, error := some ("HTTP " ++ toString status),
       message := some text }, c)
  | .error e =>
    ({ success := false, error := some e.str }, c)

/-- Aggregate shape returned by `batch_api_requests`. -/
structure BatchOut where
  total : Nat
  successful : Nat
  failed : Nat
  results : List Envelope

/-- `batch_api_requests(endpoints, use_cache)`: fan `api_get` out over the
endpoints with `asyncio.gather`, which yields results in argument order, then
partition on the `success` flag. `fetchOne ep` abstracts the envelope that
the gathered `api_get(ep, use_cache)` task yields (its cache interaction
depends on task interleaving, which the aggregate counts never see). -/
def batch_api_requests (fetchOne : String → Envelope)
    (endpoints : List String) : BatchOut :=
  let results := endpoints.map fetchOne
  let successful := results.filter (fun r => r.success)
  let failed := results.filter (fun r => !r.success)
  { total := endpoints.length, successful := successful.length,
    failed := failed.length, results := results }

/-- Total backoff slept by a loop that starts at delay `d`, multiplies the
delay by `base` after each sleep, and sleeps `n` times. -/
def geom (d base : Rat) : Nat → Rat
  | 0 => 0
  | n + 1 => d + geom (d * base) base n

/-! ## Association-list lemmas for the modelled dicts -/

theorem dictGet?_nil {α : Type} (k : String) :
    dictGet? ([] : List (String × α)) k = none := rfl

theorem dictGet?_cons {α : Type} (kv : String × α) (tl : List (String × α))
    (k : String) :
    dictGet? (kv :: tl) k = if kv.1 = k then some kv.2 else dictGet? tl k := by
  by_cases h : kv.1 = k
  · have hb : (kv.1 == k) = true := by simpa using h
    simp [dictGet?, List.find?_cons, hb, h]
  · have hb : (kv.1 == k) = false := by simpa using h
    simp [dictGet?, List.find?_cons, hb, h]

theorem dictGet?_eq_none_of_not_mem {α : Type} {d : List (String × α)}
    {k : String} (h : k ∉ d.map Prod.fst) : dictGet? d k = none := by
  induction d with
  | nil => rfl
  | cons kv tl ih =>
    simp only [List.map_cons, List.mem_cons, not_or] at h
    rw [dictGet?_cons, if_neg (fun hh => h.1 hh.symm), ih h.2]

theorem dictGet?_mem {α : Type} {d : List (String × α)} {k : String} {v : α}
    (hv : dictGet? d k = some v) : ∃ kv ∈ d, (kv.1 == k) = true := by
  unfold dictGet? at hv
  cases hfind : d.find? (fun kv => kv.1 == k) with
  | none => rw [hfind] at hv; simp at hv
  | some kv =>
    have h1 : kv ∈ d := List.mem_of_find?_eq_some hfind
    have h2 := List.find?_some hfind
    exact ⟨kv, h1, h2⟩

theorem dictGet?_dictDel_self {α : Type} {d : List (String × α)} {k : String}
    (hnd : (d.map Prod.fst).Nodup) : dictGet? (dictDel d k) k = none := by
  induction d with
  | nil => rfl
  | cons kv tl ih =>
    simp only [List.map_cons, List.nodup_cons] at hnd
    by_cases h : kv.1 = k
    · rw [dictDel, List.eraseP_cons_of_pos (by simpa using h)]
      exact dictGet?_eq_none_of_not_mem (h ▸ hnd.1)
    · rw [dictDel, List.eraseP_cons_of_neg (by simpa using h)]
      rw [show (kv :: tl.eraseP (fun kv => kv.1 == k)) =
            (kv :: dictDel tl k) from rfl]
      rw [dictGet?_cons, if_neg h]
      exact ih hnd.2

theorem dictDel_length {α : Type} {d : List (String × α)} {k : String} {v : α}
    (hv : dictGet? d k = some v) : (dictDel d k).length + 1 = d.length := by
  obtain ⟨kv, hmem, hpred⟩ := dictGet?_mem hv
  have hlen := List.length_eraseP_of_mem (p := fun kv => kv.1 == k) hmem hpred
  have hpos : 0 < d.length :=
    List.length_pos.mpr (by rintro rfl; simp at hmem)
  unfold dictDel
  omega

theorem if_beq_true {α : Type} {a b : String} {x y : α}
    (h : (a == b) = true) : (if a == b then x else y) = x := by
  rw [h]; exact if_pos rfl

theorem if_beq_false {α : Type} {a b : String} {x y : α}
    (h : (a == b) = false) : (if a == b then x else y) = y := by
  rw [h]; exact if_neg Bool.false_ne_true

theorem dictGet?_map_set_self {α : Type} {d : List (String × α)} {k : String}
    (v : α) (h : dictContains d k = true) :
    dictGet? (d.map (fun kv => if kv.1 == k then (k, v) else kv)) k
      = some v := by
  induction d with
  | nil => simp [dictContains] at h
  | cons kv tl ih =>
    simp only [List.map_cons]
    cases hb : (kv.1 == k) with
    | true =>
      have hhead : (if true = true then (k, v) else kv) = (k, v) := if_pos rfl
      rw [hhead, dictGet?_cons, if_pos (show (k, v).1 = k from rfl)]
    | false =>
      have hhead : (if false = true then (k, v) else kv) = kv :=
        if_neg Bool.false_ne_true
      have hk : ¬kv.1 = k := by simpa using hb
      have h2 : dictContains tl k = true := by
        simpa [dictContains, List.any_cons, hb] using h
      rw [hhead, dictGet?_cons, if_neg hk]
      exact ih h2

theorem dictGet?_map_set_ne {α : Type} {d : List (String × α)} {k k2 : String}
    (v : α) (hne : k2 ≠ k) :
    dictGet? (d.map (fun kv => if kv.1 == k then (k, v) else kv)) k2
      = dictGet? d k2 := by
  induction d with
  | nil => rfl
  | cons kv tl ih =>
    simp only [List.map_cons]
    cases hb : (kv.1 == k) with
    | true =>
      have hhead : (if true = true then (k, v) else kv) = (k, v) := if_pos rfl
      have hk : kv.1 = k := by simpa using hb
      have h1 : ¬(k, v).1 = k2 := fun hh => hne hh.symm
      have h2 : ¬kv.1 = k2 := by
        rw [hk]; exact fun hh => hne hh.symm
      rw [hhead, dictGet?_cons, if_neg h1, ih, dictGet?_cons, if_neg h2]
    | false =>
      have hhead : (if false = true then (k, v) else kv) = kv :=
        if_neg Bool.false_ne_true
      rw [hhead, dictGet?_cons, ih, dictGet?_cons]

theorem dictGet?_append_single_ne {α : Type} {d : List (String × α)}
    {k k2 : String} (v : α) (hne : k2 ≠ k) :
    dictGet? (d ++ [(k, v)]) k2 = dictGet? d k2 := by
  induction d with
  | nil =>
    rw [List.nil_append, dictGet?_cons, if_neg (fun hh => hne hh.symm)]
  | cons kv tl ih => rw [List.cons_append, dictGet?_cons, ih, dictGet?_cons]

theorem dictContains_tail {α : Type} {kv : String × α}
    {tl : List (String × α)} {k : String}
    (h : ¬dictContains (kv :: tl) k = true) : ¬dictContains tl k = true := by
  intro h2
  apply h
  unfold dictContains at h2 ⊢
  rw [List.any_cons, h2, Bool.or_true]

theorem dictGet?_append_single_self {α : Type} {d : List (String × α)}
    {k : String} (v : α) (h : ¬dictContains d k = true) :
    dictGet? (d ++ [(k, v)]) k = some v := by
  induction d with
  | nil => rw [List.nil_append, dictGet?_cons, if_pos rfl]
  | cons kv tl ih =>
    have hk : ¬kv.1 = k := fun hh => h (by
      unfold dictContains
      rw [List.any_cons]
      simp [hh])
    rw [List.cons_append, dictGet?_cons, if_neg hk]
    exact ih (dictContains_tail h)

theorem dictGet?_dictSet_self {α : Type} (d : List (String × α)) (k : String)
    (v : α) : dictGet? (dictSet d k v) k = some v := by
  unfold dictSet
  by_cases h : dictContains d k = true
  · rw [if_pos h]; exact dictGet?_map_set_self v h
  · rw [if_neg h]; exact dictGet?_append_single_self v h

theorem dictGet?_dictSet_ne {α : Type} {d : List (String × α)} {k k2 : String}
    (v : α) (hne : k2 ≠ k) :
    dictGet? (dictSet d k v) k2 = dictGet? d k2 := by
  unfold dictSet
  by_cases h : dictContains d k = true
  · rw [if_pos h]; exact dictGet?_map_set_ne v hne
  · rw [if_neg h]; exact dictGet?_append_single_ne v hne

theorem dictGet?_dictSet_isSome {α : Type} {d : List (String × α)}
    {k k2 : String} (v : α) (h : (dictGet? d k2).isSome = true) :
    (dictGet? (dictSet d k v) k2).isSome = true := by
  by_cases hk : k2 = k
  · subst hk; simp [dictGet?_dictSet_self]
  · rwa [dictGet?_dictSet_ne v hk]

/-! ## Cache read lemmas -/

theorem cache_get_fresh (c : SimpleCache) (key : String) (v : JsonV)
    (t now : Rat) (hv : dictGet? c.cache key = some v)
    (ht : dictGet? c.timestamps key = some t) (hfresh : now - t < c.ttl) :
    c.get key now = (some v, c) := by
  unfold SimpleCache.get
  simp only [hv, ht, Option.getD_some]
  rw [if_pos hfresh]

theorem cache_get_expired (c : SimpleCache) (key : String) (v : JsonV)
    (t now : Rat) (hv : dictGet? c.cache key = some v)
    (ht : dictGet? c.timestamps key = some t) (hexp : c.ttl ≤ now - t) :
    c.get key now =
      (none, ⟨c.ttl, dictDel c.cache key, dictDel c.timestamps key⟩) := by
  unfold SimpleCache.get
  simp only [hv, ht, Option.getD_some]
  rw [if_neg (not_lt.mpr hexp)]

/-! ## Retry engine step lemmas -/

theorem retryLoop_step_ok {func : Nat → Except PyErr JsonV} {attempt : Nat}
    {v : JsonV} (h : func attempt = .ok v) (r : Nat) (delay base : Rat)
    (lastExc : Option PyErr) (calls : Nat) (slept : Rat) :
    retryLoop func (r + 1) attempt delay base lastExc calls slept =
      ⟨.ok v, calls + 1, slept⟩ := by
  simp only [retryLoop, h]

theorem retryLoop_step_retryable {func : Nat → Except PyErr JsonV}
    {attempt : Nat} {e : PyErr} (he : func attempt = .error e)
    (hre : retryableErr e = true) {r : Nat} (hr : r ≠ 0) (delay base : Rat)
    (lastExc : Option PyErr) (calls : Nat) (slept : Rat) :
    retryLoop func (r + 1) attempt delay base lastExc calls slept =
      retryLoop func r (attempt + 1) (delay * base) base (some e) (calls + 1)
        (slept + delay) := by
  have hbr : (r != 0) = true := by simpa using hr
  cases e with
  | timeout => simp only [retryLoop, he, hbr, if_true]
  | networkError => simp only [retryLoop, he, hbr, if_true]
  | httpStatusError status text =>
    cases hcond : (decide (400 ≤ status) && decide (status < 500)) with
    | true =>
      exfalso
      simp only [retryableErr, hcond] at hre
      simp at hre
    | false =>
      simp only [retryLoop, he, hcond, hbr, if_true, Bool.false_eq_true,
        if_false]
  | other msg => simp [retryableErr] at hre

theorem retryLoop_step_retryable_last {func : Nat → Except PyErr JsonV}
    {attempt : Nat} {e : PyErr} (he : func attempt = .error e)
    (hre : retryableErr e = true) (delay base : Rat) (lastExc : Option PyErr)
    (calls : Nat) (slept : Rat) :
    retryLoop func 1 attempt delay base lastExc calls slept =
      ⟨.error e, calls + 1, slept⟩ := by
  cases e with
  | timeout => simp [retryLoop, he, pyRaiseLast]
  | networkError => simp [retryLoop, he, pyRaiseLast]
  | httpStatusError status text =>
    cases hcond : (decide (400 ≤ status) && decide (status < 500)) with
    | true =>
      exfalso
      simp only [retryableErr, hcond] at hre
      simp at hre
    | false => simp [retryLoop, he, hcond, pyRaiseLast]
  | other msg => simp [retryableErr] at hre

theorem retryLoop_step_4xx {func : Nat → Except PyErr JsonV} {attempt : Nat}
    {status : Nat} {text : String}
    (he : func attempt = .error (.httpStatusError status text))
    (h4 : 400 ≤ status) (h5 : status < 500) (r : Nat) (delay base : Rat)
    (lastExc : Option PyErr) (calls : Nat) (slept : Rat) :
    retryLoop func (r + 1) attempt delay base lastExc calls slept =
      ⟨.error (.httpStatusError status text), calls + 1, slept⟩ := by
  have hcond : (decide (400 ≤ status) && decide (status < 500)) = true := by
    simp [h4, h5]
  simp only [retryLoop, he, hcond, if_true]

theorem retryLoop_step_other {func : Nat → Except PyErr JsonV} {attempt : Nat}
    {msg : String} (he : func attempt = .error (.other msg)) (r : Nat)
    (delay base : Rat) (lastExc : Option PyErr) (calls : Nat) (slept : Rat) :
    retryLoop func (r + 1) attempt delay base lastExc calls slept =
      ⟨.error (.other msg), calls + 1, slept⟩ := by
  simp only [retryLoop, he]

theorem retryLoop_ok_after_failures (func : Nat → Except PyErr JsonV)
    (v : JsonV) (j : Nat) :
    ∀ (r attempt : Nat) (delay base : Rat) (lastExc : Option PyErr)
      (calls : Nat) (slept : Rat),
      j < r →
      (∀ i, i < j → ∃ e, func (attempt + i) = .error e ∧
        retryableErr e = true) →
      func (attempt + j) = .ok v →
      retryLoop func r attempt delay base lastExc calls slept =
        ⟨.ok v, calls + (j + 1), slept + geom delay base j⟩ := by
  induction j with
  | zero =>
    intro r attempt delay base lastExc calls slept hlt _ hok
    obtain ⟨r2, rfl⟩ : ∃ r2, r = r2 + 1 := ⟨r - 1, by omega⟩
    rw [Nat.add_zero] at hok
    rw [retryLoop_step_ok hok]
    simp [geom]
  | succ j ih =>
    intro r attempt delay base lastExc calls slept hlt hfail hok
    obtain ⟨r2, rfl⟩ : ∃ r2, r = r2 + 1 := ⟨r - 1, by omega⟩
    obtain ⟨e, he, hre⟩ := hfail 0 (Nat.succ_pos j)
    rw [Nat.add_zero] at he
    rw [retryLoop_step_retryable he hre (show r2 ≠ 0 by omega)]
    rw [ih r2 (attempt + 1) (delay * base) base (some e) (calls + 1)
      (slept + delay) (by omega)
      (fun i hi => by
        have h2 := hfail (i + 1) (by omega)
        rwa [show attempt + (i + 1) = attempt + 1 + i by omega] at h2)
      (by rwa [show attempt + 1 + j = attempt + (j + 1) by omega])]
    congr 1
    · omega
    · simp only [geom]
      ring

theorem retryLoop_allFail (func : Nat → Except PyErr JsonV)
    (errs : Nat → PyErr) (n : Nat) :
    ∀ (attempt : Nat) (delay base : Rat) (lastExc : Option PyErr)
      (calls : Nat) (slept : Rat),
      1 ≤ n →
      (∀ i, i < n → func (attempt + i) = .error (errs (attempt + i)) ∧
        retryableErr (errs (attempt + i)) = true) →
      retryLoop func n attempt delay base lastExc calls slept =
        ⟨.error (errs (attempt + n - 1)), calls + n,
          slept + geom delay base (n - 1)⟩ := by
  induction n with
  | zero => intro _ _ _ _ _ _ h; omega
  | succ m ih =>
    intro attempt delay base lastExc calls slept _ hfail
    by_cases hm : m = 0
    · subst hm
      obtain ⟨h1, h2⟩ := hfail 0 Nat.one_pos
      rw [Nat.add_zero] at h1 h2
      rw [retryLoop_step_retryable_last h1 h2]
      simp [geom]
    · obtain ⟨h1, h2⟩ := hfail 0 (Nat.succ_pos m)
      rw [Nat.add_zero] at h1 h2
      rw [retryLoop_step_retryable h1 h2 hm]
      rw [ih (attempt + 1) (delay * base) base (some (errs attempt))
        (calls + 1) (slept + delay) (by omega)
        (fun i hi => by
          have h3 := hfail (i + 1) (by omega)
          rwa [show attempt + (i + 1) = attempt + 1 + i by omega] at h3)]
      rw [show attempt + 1 + m - 1 = attempt + (m + 1) - 1 by omega]
      congr 1
      · omega
      · obtain ⟨m2, rfl⟩ : ∃ m2, m = m2 + 1 := ⟨m - 1, by omega⟩
        rw [show m2 + 1 + 1 - 1 = m2 + 1 by omega,
          show m2 + 1 - 1 = m2 by omega]
        simp only [geom]
        ring

theorem geom_eq_mul_sum (base : Rat) (n : Nat) :
    ∀ d : Rat,
      geom d base n = d * Finset.sum (Finset.range n) (fun i => base ^ i) := by
  induction n with
  | zero => intro d; simp [geom]
  | succ m ih =>
    intro d
    simp only [geom]
    rw [ih (d * base), geom_sum_succ]
    ring

/-! ## Claim theorems: retry engine -/

/-- C1: with `max_retries ≥ k + 1`, an operation that fails retryably exactly
`k` times and then succeeds makes `retry_with_backoff` return the success
value after exactly `k + 1` invocations; an operation that fails retryably on
every attempt makes it raise after exactly `max_retries` invocations, never
more, and the raised error is the one from the last attempt. -/
theorem retry_bound_and_last_error (func : Nat → Except PyErr JsonV)
    (errs : Nat → PyErr) (k max_retries : Nat) (d b : Rat) (v : JsonV) :
    ((∀ i, i < k → ∃ e, func i = .error e ∧ retryableErr e = true) →
      func k = .ok v → k + 1 ≤ max_retries →
      retry_with_backoff func max_retries d b =
        ⟨.ok v, k + 1, geom d b k⟩) ∧
    (1 ≤ max_retries →
      (∀ i, i < max_retries → func i = .error (errs i) ∧
        retryableErr (errs i) = true) →
      retry_with_backoff func max_retries d b =
        ⟨.error (errs (max_retries - 1)), max_retries,
          geom d b (max_retries - 1)⟩) := by
  constructor
  · intro hfail hok hle
    unfold retry_with_backoff
    rw [retryLoop_ok_after_failures func v k max_retries 0 d b none 0 0
      (by omega) (fun i hi => by simpa using hfail i hi) (by simpa using hok)]
    congr 1
    · omega
    · exact zero_add _
  · intro h1 hfail
    unfold retry_with_backoff
    rw [retryLoop_allFail func errs max_retries 0 d b none 0 0 h1
      (fun i hi => by simpa using hfail i hi)]
    congr 1
    · simp
    · omega
    · simp

/-- Witness for C1: two timeouts then success with three attempts allowed
returns the value after 2 calls; three distinguishable retryable failures
with three attempts allowed raise the third error after 3 calls. -/
theorem retry_bound_and_last_error_witness :
    retry_with_backoff
        (fun n => if n < 1 then .error .timeout else .ok (.str "ok")) 3 1 2 =
      ⟨.ok (.str "ok"), 2, 1⟩ ∧
    retry_with_backoff
        (fun n => .error (.httpStatusError (500 + n) "boom")) 3 1 2 =
      ⟨.error (.httpStatusError 502 "boom"), 3, 3⟩ := by
  constructor
  · have h := (retry_bound_and_last_error
      (fun n => if n < 1 then .error .timeout else .ok (.str "ok"))
      (fun _ => .timeout) 1 3 1 2 (.str "ok")).1
      (by
        intro i hi
        have : i = 0 := by omega
        subst this
        exact ⟨.timeout, rfl, rfl⟩)
      rfl (by omega)
    rw [h]
    norm_num [geom]
  · have h := (retry_bound_and_last_error
      (fun n => .error (.httpStatusError (500 + n) "boom"))
      (fun n => .httpStatusError (500 + n) "boom") 0 3 1 2 .null).2
      (by omega)
      (by
        intro i hi
        refine ⟨rfl, ?_⟩
        simp [retryableErr])
    rw [h]
    norm_num [geom]

/-- C3: a 4xx HTTP status error on the first invocation makes
`retry_with_backoff` re-raise it immediately: exactly one invocation and no
backoff sleep, for every `max_retries ≥ 1`. -/
theorem terminal_4xx_short_circuit (func : Nat → Except PyErr JsonV)
    (max_retries : Nat) (d b : Rat) (status : Nat) (text : String)
    (h1 : 1 ≤ max_retries)
    (hf : func 0 = .error (.httpStatusError status text))
    (h4 : 400 ≤ status) (h5 : status < 500) :
    retry_with_backoff func max_retries d b =
      ⟨.error (.httpStatusError status text), 1, 0⟩ := by
  obtain ⟨r, rfl⟩ : ∃ r, max_retries = r + 1 := ⟨max_retries - 1, by omega⟩
  unfold retry_with_backoff
  rw [retryLoop_step_4xx hf h4 h5]

/-- Witness for C3: a 404 with five attempts allowed is raised after one
call and zero sleep. -/
theorem terminal_4xx_short_circuit_witness :
    retry_with_backoff
        (fun _ => .error (.httpStatusError 404 "Not Found")) 5 1 2 =
      ⟨.error (.httpStatusError 404 "Not Found"), 1, 0⟩ :=
  terminal_4xx_short_circuit
    (fun _ => .error (.httpStatusError 404 "Not Found")) 5 1 2 404 "Not Found"
    (by omega) rfl (by omega) (by omega)

/-- C9: when every attempt fails retryably, the total time slept before the
final attempt is `d * (b^0 + b^1 + ... + b^(max_retries - 2))`; concretely,
with `max_retries = 3`, initial delay `1`, base `2`, and two retryable
failures before a success, the total suspension before the success is `3`
and three attempts are made. -/
theorem backoff_total_suspension (func : Nat → Except PyErr JsonV)
    (errs : Nat → PyErr) (max_retries : Nat) (d b : Rat) (v : JsonV) :
    (2 ≤ max_retries →
      (∀ i, i < max_retries → func i = .error (errs i) ∧
        retryableErr (errs i) = true) →
      (retry_with_backoff func max_retries d b).slept =
        d * Finset.sum (Finset.range (max_retries - 1)) (fun i => b ^ i)) ∧
    ((∀ i, i < 2 → ∃ e, func i = .error e ∧ retryableErr e = true) →
      func 2 = .ok v →
      retry_with_backoff func 3 1 2 = ⟨.ok v, 3, 3⟩) := by
  constructor
  · intro h2 hfail
    have h := (retry_bound_and_last_error func errs 0 max_retries d b v).2
      (by omega) hfail
    rw [h]
    exact geom_eq_mul_sum b (max_retries - 1) d
  · intro hfail hok
    have h := (retry_bound_and_last_error func errs 2 3 1 2 v).1
      hfail hok (by omega)
    rw [h]
    norm_num [geom]

/-- Witness for C9: three network failures with four attempts allowed sleep
`1 + 2 + 4 = 7` total; two failures then a success with three attempts sleep
`1 + 2 = 3` before returning. -/
theorem backoff_total_suspension_witness :
    (retry_with_backoff (fun _ => .error .networkError) 4 1 2).slept =
      1 * Finset.sum (Finset.range 3) (fun i => (2 : Rat) ^ i) ∧
    retry_with_backoff
        (fun n => if n < 2 then .error .networkError else .ok .null) 3 1 2 =
      ⟨.ok .null, 3, 3⟩ := by
  constructor
  · exact (backoff_total_suspension (fun _ => .error .networkError)
      (fun _ => .networkError) 4 1 2 .null).1 (by omega)
      (fun i hi => ⟨rfl, rfl⟩)
  · refine (backoff_total_suspension
      (fun n => if n < 2 then .error .networkError else .ok .null)
      (fun _ => .networkError) 3 1 2 .null).2 ?_ rfl
    intro i hi
    refine ⟨.networkError, ?_, rfl⟩
    have : i < 2 := hi
    simp [this]

/-- C8 counterexample: an operation always failing with an error that is not
an HTTP status error and not a timeout/network error (an uncaught exception,
e.g. a JSON decode error) is invoked exactly once under `max_retries = 3`,
not the three times the claim requires. -/
theorem uncaught_error_not_retried_cex :
    (retry_with_backoff (fun _ => .error (.other "boom")) 3 1 2).calls = 1 ∧
    ¬(retry_with_backoff (fun _ => .error (.other "boom")) 3 1 2).calls
        = 3 := by
  have h1 : (retry_with_backoff
      (fun _ => .error (.other "boom")) 3 1 2).calls = 1 := rfl
  refine ⟨h1, ?_⟩
  rw [h1]
  omega

/-- C8 (amended): among failures carrying no HTTP status, only timeout and
network errors are classified retryable and retried with backoff up to
`max_retries` total attempts; any other exception is not caught by the retry
loop and propagates immediately after a single invocation, with no sleep. -/
theorem nonhttp_error_classification (func : Nat → Except PyErr JsonV)
    (msg : String) (max_retries : Nat) (d b : Rat) :
    (1 ≤ max_retries → func 0 = .error (.other msg) →
      retry_with_backoff func max_retries d b =
        ⟨.error (.other msg), 1, 0⟩) ∧
    (1 ≤ max_retries →
      (∀ i, i < max_retries →
        func i = .error .timeout ∨ func i = .error .networkError) →
      (retry_with_backoff func max_retries d b).calls = max_retries) := by
  constructor
  · intro h1 hf
    obtain ⟨r, rfl⟩ : ∃ r, max_retries = r + 1 := ⟨max_retries - 1, by omega⟩
    unfold retry_with_backoff
    rw [retryLoop_step_other hf]
  · intro h1 hfail
    have h := (retry_bound_and_last_error func
      (fun i => match func i with | .error e => e | .ok _ => .timeout)
      0 max_retries d b .null).2 h1
      (fun i hi => by
        rcases hfail i hi with hf | hf <;> rw [hf] <;> exact ⟨rfl, rfl⟩)
    rw [h]

/-- Witness for C8 (amended): an uncaught error with three attempts allowed
propagates after one call; persistent timeouts with three attempts allowed
are invoked three times. -/
theorem nonhttp_error_classification_witness :
    retry_with_backoff (fun _ => .error (.other "json decode error")) 3 1 2 =
      ⟨.error (.other "json decode error"), 1, 0⟩ ∧
    (retry_with_backoff (fun _ => .error .timeout) 3 1 2).calls = 3 := by
  constructor
  · exact (nonhttp_error_classification
      (fun _ => .error (.other "json decode error"))
      "json decode error" 3 1 2).1 (by omega) rfl
  · exact (nonhttp_error_classification (fun _ => .error .timeout)
      "" 3 1 2).2 (by omega) (fun i hi => Or.inl rfl)

/-! ## Claim theorems: TTL cache -/

/-- C2: a `get` strictly within the TTL returns the stored value and leaves
the cache unchanged; a `get` at or past the TTL returns absent and removes
the entry in that same call (the entry count decreases by one); and `set` —
the only mutating operation besides `get` and `invalidate` — never removes
an entry, so no expired entry is removed except by a read or an explicit
invalidation. -/
theorem cache_ttl_read_semantics (c : SimpleCache) (key : String) (v : JsonV)
    (t now : Rat) (hnd : (c.cache.map Prod.fst).Nodup)
    (hv : dictGet? c.cache key = some v)
    (ht : dictGet? c.timestamps key = some t) :
    (now - t < c.ttl → c.get key now = (some v, c)) ∧
    (c.ttl ≤ now - t →
      (c.get key now).1 = none ∧
      dictGet? (c.get key now).2.cache key = none ∧
      (c.get key now).2.cache.length + 1 = c.cache.length) ∧
    (∀ (k2 : String) (v2 : JsonV) (t2 : Rat) (k3 : String),
      (dictGet? c.cache k3).isSome = true →
      (dictGet? (c.set k2 v2 t2).cache k3).isSome = true) := by
  refine ⟨fun hfresh => cache_get_fresh c key v t now hv ht hfresh,
    fun hexp => ?_, fun k2 v2 t2 k3 h3 => dictGet?_dictSet_isSome v2 h3⟩
  rw [cache_get_expired c key v t now hv ht hexp]
  exact ⟨rfl, dictGet?_dictDel_self hnd, dictDel_length hv⟩

/-- Witness for C2 at a one-entry cache with TTL 300 written at time 0: a
read at 299 hits, a read at 301 misses and shrinks the store to empty, and a
`set` of another key keeps the entry present. -/
theorem cache_ttl_read_semantics_witness :
    SimpleCache.get
        ⟨300, [("GET:/users/1", .str "Alice")], [("GET:/users/1", 0)]⟩
        "GET:/users/1" 299 =
      (some (.str "Alice"),
        ⟨300, [("GET:/users/1", .str "Alice")], [("GET:/users/1", 0)]⟩) ∧
    (SimpleCache.get
        ⟨300, [("GET:/users/1", .str "Alice")], [("GET:/users/1", 0)]⟩
        "GET:/users/1" 301).1 = none ∧
    (SimpleCache.get
        ⟨300, [("GET:/users/1", .str "Alice")], [("GET:/users/1", 0)]⟩
        "GET:/users/1" 301).2.cache.length + 1 = 1 ∧
    (dictGet?
      (SimpleCache.set
        ⟨300, [("GET:/users/1", .str "Alice")], [("GET:/users/1", 0)]⟩
        "GET:/other" .null 5).cache "GET:/users/1").isSome = true := by
  have h299 := cache_ttl_read_semantics
    ⟨300, [("GET:/users/1", .str "Alice")], [("GET:/users/1", 0)]⟩
    "GET:/users/1" (.str "Alice") 0 299 (by simp) rfl rfl
  have h301 := cache_ttl_read_semantics
    ⟨300, [("GET:/users/1", .str "Alice")], [("GET:/users/1", 0)]⟩
    "GET:/users/1" (.str "Alice") 0 301 (by simp) rfl rfl
  refine ⟨?_, (h301.2.1 (by norm_num)).1, (h301.2.1 (by norm_num)).2.2, ?_⟩
  · have := h299.1 (by norm_num)
    simpa using this
  · exact h299.2.2 "GET:/other" .null 5 "GET:/users/1" rfl

/-! ## Invalidation lemmas -/

theorem contains_keysToDelete {d : List (String × JsonV)} {p : String}
    (kv : String × JsonV) (hmem : kv ∈ d) :
    ((d.map Prod.fst).filter (fun k => strContains k p)).contains kv.1
      = strContains kv.1 p := by
  cases hsc : strContains kv.1 p with
  | true =>
    have hin : kv.1 ∈ (d.map Prod.fst).filter (fun k => strContains k p) :=
      List.mem_filter.mpr ⟨List.mem_map_of_mem _ hmem, hsc⟩
    simp [List.contains, hin]
  | false =>
    cases hc : ((d.map Prod.fst).filter
        (fun k => strContains k p)).contains kv.1 with
    | false => rfl
    | true =>
      exfalso
      have hin : kv.1 ∈ (d.map Prod.fst).filter (fun k => strContains k p) :=
        by simpa [List.contains] using hc
      have hmatch := (List.mem_filter.mp hin).2
      rw [hsc] at hmatch
      exact Bool.false_ne_true hmatch

theorem invalidate_some_cache_eq (c : SimpleCache) {p : String}
    (hp : p ≠ "") :
    (c.invalidate (some p)).cache =
      c.cache.filter (fun kv => !strContains kv.1 p) := by
  have hlen : (p.length != 0) = true := by
    rcases p with ⟨data⟩
    cases data with
    | nil => exact absurd rfl hp
    | cons c2 cs => simp [String.length]
  have hstep : (c.invalidate (some p)).cache =
      c.cache.filter (fun kv =>
        !(((c.cache.map Prod.fst).filter
            (fun k => strContains k p)).contains kv.1)) := by
    simp only [SimpleCache.invalidate]
    rw [if_pos hlen]
  rw [hstep]
  exact List.filter_congr
    (fun kv hmem => by rw [contains_keysToDelete kv hmem])

theorem dictGet?_filter_not_matching {d : List (String × JsonV)}
    {p k : String} (hk : strContains k p = false) :
    dictGet? (d.filter (fun kv => !strContains kv.1 p)) k = dictGet? d k := by
  induction d with
  | nil => rfl
  | cons kv tl ih =>
    by_cases hkv : kv.1 = k
    · have hs : strContains kv.1 p = false := by rw [hkv]; exact hk
      rw [List.filter_cons_of_pos (by simp [hs]), dictGet?_cons, if_pos hkv,
        dictGet?_cons, if_pos hkv]
    · cases hs : strContains kv.1 p with
      | true =>
        rw [List.filter_cons_of_neg (by simp [hs]), ih, dictGet?_cons,
          if_neg hkv]
      | false =>
        rw [List.filter_cons_of_pos (by simp [hs]), dictGet?_cons,
          if_neg hkv, ih, dictGet?_cons, if_neg hkv]

theorem dictGet?_filter_matching {d : List (String × JsonV)} {p k : String}
    (hk : strContains k p = true) :
    dictGet? (d.filter (fun kv => !strContains kv.1 p)) k = none := by
  induction d with
  | nil => rfl
  | cons kv tl ih =>
    by_cases hkv : kv.1 = k
    · have hs : strContains kv.1 p = true := by rw [hkv]; exact hk
      rw [List.filter_cons_of_neg (by simp [hs])]
      exact ih
    · cases hs : strContains kv.1 p with
      | true =>
        rw [List.filter_cons_of_neg (by simp [hs])]
        exact ih
      | false =>
        rw [List.filter_cons_of_pos (by simp [hs]), dictGet?_cons,
          if_neg hkv]
        exact ih

theorem length_filter_not_add {α : Type} (d : List α) (q : α → Bool) :
    (d.filter (fun x => !q x)).length + (d.filter q).length = d.length := by
  induction d with
  | nil => rfl
  | cons x tl ih =>
    cases hq : q x with
    | true =>
      rw [List.filter_cons_of_neg (by simp [hq]),
        List.filter_cons_of_pos hq, List.length_cons, List.length_cons]
      omega
    | false =>
      rw [List.filter_cons_of_pos (by simp [hq]),
        List.filter_cons_of_neg (by simp [hq]), List.length_cons,
        List.length_cons]
      omega

/-- C4: for a non-empty pattern, `invalidate` removes exactly the entries
whose key contains the pattern as a substring — lookups of non-matching keys
are unchanged, lookups of matching keys become absent, and the entry count
decreases by exactly the number of matching keys — while `invalidate` with
no pattern clears the whole store. -/
theorem invalidate_pattern_semantics (c : SimpleCache) (p : String) :
    (p ≠ "" →
      (∀ k, strContains k p = false →
        dictGet? (c.invalidate (some p)).cache k = dictGet? c.cache k) ∧
      (∀ k, strContains k p = true →
        dictGet? (c.invalidate (some p)).cache k = none) ∧
      (c.invalidate (some p)).cache.length +
          (c.cache.filter (fun kv => strContains kv.1 p)).length =
        c.cache.length) ∧
    ((c.invalidate none).cache = [] ∧ (c.invalidate none).timestamps = []) := by
  constructor
  · intro hp
    have hcache := invalidate_some_cache_eq c hp
    refine ⟨fun k hk => ?_, fun k hk => ?_, ?_⟩
    · rw [hcache]
      exact dictGet?_filter_not_matching hk
    · rw [hcache]
      exact dictGet?_filter_matching hk
    · rw [hcache]
      exact length_filter_not_add c.cache (fun kv => strContains kv.1 p)
  · exact ⟨rfl, rfl⟩

/-- Witness for C4 at a three-entry cache with two keys containing
`"users"`: the non-matching key survives with its value, a matching key is
gone, the count drops from 3 by exactly 2, and a patternless invalidation
empties the store. -/
theorem invalidate_pattern_semantics_witness :
    dictGet? (SimpleCache.invalidate
        ⟨300,
          [("GET:/users/1", .str "a"), ("GET:/users/2", .str "b"),
            ("POST:/items", .str "c")],
          [("GET:/users/1", 0), ("GET:/users/2", 0), ("POST:/items", 0)]⟩
        (some "users")).cache "POST:/items" = some (.str "c") ∧
    dictGet? (SimpleCache.invalidate
        ⟨300,
          [("GET:/users/1", .str "a"), ("GET:/users/2", .str "b"),
            ("POST:/items", .str "c")],
          [("GET:/users/1", 0), ("GET:/users/2", 0), ("POST:/items", 0)]⟩
        (some "users")).cache "GET:/users/1" = none ∧
    (SimpleCache.invalidate
        ⟨300,
          [("GET:/users/1", .str "a"), ("GET:/users/2", .str "b"),
            ("POST:/items", .str "c")],
          [("GET:/users/1", 0), ("GET:/users/2", 0), ("POST:/items", 0)]⟩
        (some "users")).cache.length + 2 = 3 ∧
    (SimpleCache.invalidate
        ⟨300,
          [("GET:/users/1", .str "a"), ("GET:/users/2", .str "b"),
            ("POST:/items", .str "c")],
          [("GET:/users/1", 0), ("GET:/users/2", 0), ("POST:/items", 0)]⟩
        none).cache = [] := by
  have h := invalidate_pattern_semantics
    ⟨300,
      [("GET:/users/1", .str "a"), ("GET:/users/2", .str "b"),
        ("POST:/items", .str "c")],
      [("GET:/users/1", 0), ("GET:/users/2", 0), ("POST:/items", 0)]⟩
    "users"
  have hne : ("users" : String) ≠ "" := by decide
  refine ⟨?_, (h.1 hne).2.1 "GET:/users/1" (by decide), ?_, (h.2).1⟩
  · rw [(h.1 hne).1 "POST:/items" (by decide)]
    rfl
  · have hlen := (h.1 hne).2.2
    have hfilter :
        (List.filter (fun kv => strContains kv.1 "users")
          (SimpleCache.cache
            ⟨300,
              [("GET:/users/1", .str "a"), ("GET:/users/2", .str "b"),
                ("POST:/items", .str "c")],
              [("GET:/users/1", 0), ("GET:/users/2", 0),
                ("POST:/items", 0)]⟩)).length = 2 := by decide
    have htotal :
        (SimpleCache.cache
          ⟨300,
            [("GET:/users/1", .str "a"), ("GET:/users/2", .str "b"),
              ("POST:/items", .str "c")],
            [("GET:/users/1", 0), ("GET:/users/2", 0),
              ("POST:/items", 0)]⟩).length = 3 := by decide
    omega

/-! ## Envelope path lemmas for api_get and api_post -/

theorem apiGetLive_ok {func : Nat → Except PyErr JsonV} {max_retries : Nat}
    {v : JsonV} (endpoint : String) (use_cache : Bool) (c : SimpleCache)
    (now : Rat) (nowIso : String)
    (h : (retry_with_backoff func max_retries 1 2).result = .ok v) :
    apiGetLive endpoint use_cache func max_retries c now nowIso =
      ({ success := true, data := some v, from_cache := some false,
         timestamp := some nowIso },
        if use_cache then c.set ("GET:" ++ endpoint) v now else c) := by
  simp only [apiGetLive, h]

theorem apiGetLive_err_http {func : Nat → Except PyErr JsonV}
    {max_retries status : Nat} {text : String} (endpoint : String)
    (use_cache : Bool) (c : SimpleCache) (now : Rat) (nowIso : String)
    (h : (retry_with_backoff func max_retries 1 2).result =
      .error (.httpStatusError status text)) :
    apiGetLive endpoint use_cache func max_retries c now nowIso =
      ({ success := false, error := some ("HTTP " ++ toString status),
         message := some text, endpoint := some endpoint }, c) := by
  simp only [apiGetLive, h]

theorem apiGetLive_err_nonhttp {func : Nat → Except PyErr JsonV}
    {max_retries : Nat} {e : PyErr} (endpoint : String) (use_cache : Bool)
    (c : SimpleCache) (now : Rat) (nowIso : String)
    (h : (retry_with_backoff func max_retries 1 2).result = .error e)
    (hn : ∀ status text, e ≠ .httpStatusError status text) :
    apiGetLive endpoint use_cache func max_retries c now nowIso =
      ({ success := false, error := some e.str,
         endpoint := some endpoint }, c) := by
  cases e with
  | httpStatusError status text => exact absurd rfl (hn status text)
  | timeout => simp only [apiGetLive, h]
  | networkError => simp only [apiGetLive, h]
  | other msg => simp only [apiGetLive, h]

theorem api_get_no_cache (endpoint : String)
    (func : Nat → Except PyErr JsonV) (max_retries : Nat) (c : SimpleCache)
    (now : Rat) (nowIso : String) :
    api_get endpoint false func max_retries c now nowIso =
      apiGetLive endpoint false func max_retries c now nowIso := rfl

theorem api_get_cache_hit {endpoint : String}
    {func : Nat → Except PyErr JsonV} {max_retries : Nat} {c : SimpleCache}
    {now : Rat} (nowIso : String)
    (h : pyTruthyOpt (c.get ("GET:" ++ endpoint) now).1 = true) :
    api_get endpoint true func max_retries c now nowIso =
      ({ success := true, data := (c.get ("GET:" ++ endpoint) now).1,
         from_cache := some true, timestamp := some nowIso },
        (c.get ("GET:" ++ endpoint) now).2) := by
  simp only [api_get, h, if_true]

theorem api_get_cache_miss {endpoint : String}
    {func : Nat → Except PyErr JsonV} {max_retries : Nat} {c : SimpleCache}
    {now : Rat} (nowIso : String)
    (h : pyTruthyOpt (c.get ("GET:" ++ endpoint) now).1 = false) :
    api_get endpoint true func max_retries c now nowIso =
      apiGetLive endpoint true func max_retries
        (c.get ("GET:" ++ endpoint) now).2 now nowIso := by
  simp only [api_get, h, Bool.false_eq_true, if_false, if_true]

theorem apiGetLive_exclusive (endpoint : String) (use_cache : Bool)
    (func : Nat → Except PyErr JsonV) (max_retries : Nat) (c : SimpleCache)
    (now : Rat) (nowIso : String) :
    ((apiGetLive endpoint use_cache func max_retries c now
          nowIso).1.data.isSome = true ∧
      (apiGetLive endpoint use_cache func max_retries c now nowIso).1.error
        = none) ∨
    ((apiGetLive endpoint use_cache func max_retries c now nowIso).1.data
        = none ∧
      (apiGetLive endpoint use_cache func max_retries c now
          nowIso).1.error.isSome = true) := by
  cases hres : (retry_with_backoff func max_retries 1 2).result with
  | ok v =>
    rw [apiGetLive_ok endpoint use_cache c now nowIso hres]
    left
    exact ⟨rfl, rfl⟩
  | error e =>
    cases e with
    | httpStatusError status text =>
      rw [apiGetLive_err_http endpoint use_cache c now nowIso hres]
      right
      exact ⟨rfl, rfl⟩
    | timeout =>
      rw [apiGetLive_err_nonhttp endpoint use_cache c now nowIso hres
        (fun _ _ h => PyErr.noConfusion h)]
      right
      exact ⟨rfl, rfl⟩
    | networkError =>
      rw [apiGetLive_err_nonhttp endpoint use_cache c now nowIso hres
        (fun _ _ h => PyErr.noConfusion h)]
      right
      exact ⟨rfl, rfl⟩
    | other msg =>
      rw [apiGetLive_err_nonhttp endpoint use_cache c now nowIso hres
        (fun _ _ h => PyErr.noConfusion h)]
      right
      exact ⟨rfl, rfl⟩

/-! ## Claim theorems: envelopes and batch -/

/-- C6: every envelope produced by `api_get` — cache hit, live success, or
any failure — populates exactly one of the `data` and `error` fields, never
both and never neither. -/
theorem envelope_exclusivity (endpoint : String) (use_cache : Bool)
    (func : Nat → Except PyErr JsonV) (max_retries : Nat) (c : SimpleCache)
    (now : Rat) (nowIso : String) :
    ((api_get endpoint use_cache func max_retries c now
          nowIso).1.data.isSome = true ∧
      (api_get endpoint use_cache func max_retries c now nowIso).1.error
        = none) ∨
    ((api_get endpoint use_cache func max_retries c now nowIso).1.data
        = none ∧
      (api_get endpoint use_cache func max_retries c now
          nowIso).1.error.isSome = true) := by
  cases use_cache with
  | false =>
    rw [api_get_no_cache]
    exact apiGetLive_exclusive endpoint false func max_retries c now nowIso
  | true =>
    cases hprobe : pyTruthyOpt (c.get ("GET:" ++ endpoint) now).1 with
    | true =>
      rw [api_get_cache_hit nowIso hprobe]
      left
      refine ⟨?_, rfl⟩
      cases hp : (c.get ("GET:" ++ endpoint) now).1 with
      | none => rw [hp] at hprobe; simp [pyTruthyOpt] at hprobe
      | some v => simp [hp]
    | false =>
      rw [api_get_cache_miss nowIso hprobe]
      exact apiGetLive_exclusive endpoint true func max_retries
        (c.get ("GET:" ++ endpoint) now).2 now nowIso

theorem api_post_ok {func : Nat → Except PyErr JsonV} {max_retries : Nat}
    {v : JsonV} (endpoint : String) (body : JsonV) (invalidate_cache : Bool)
    (c : SimpleCache) (nowIso : String)
    (h : (retry_with_backoff func max_retries 1 2).result = .ok v) :
    api_post endpoint body invalidate_cache func max_retries c nowIso =
      ({ success := true, data := some v, timestamp := some nowIso },
        if invalidate_cache then
          c.invalidate (some (if endpoint.data.contains '/' then
            ((endpoint.splitOn "/").drop 1).headD "" else endpoint))
        else c) := by
  simp only [api_post, h]

theorem api_post_err_http {func : Nat → Except PyErr JsonV}
    {max_retries status : Nat} {text : String} (endpoint : String)
    (body : JsonV) (invalidate_cache : Bool) (c : SimpleCache)
    (nowIso : String)
    (h : (retry_with_backoff func max_retries 1 2).result =
      .error (.httpStatusError status text)) :
    api_post endpoint body invalidate_cache func max_retries c nowIso =
      ({ success := false, error := some ("HTTP " ++ toString status),
         message := some text }, c) := by
  simp only [api_post, h]

theorem api_post_err_nonhttp {func : Nat → Except PyErr JsonV}
    {max_retries : Nat} {e : PyErr} (endpoint : String) (body : JsonV)
    (invalidate_cache : Bool) (c : SimpleCache) (nowIso : String)
    (h : (retry_with_backoff func max_retries 1 2).result = .error e)
    (hn : ∀ status text, e ≠ .httpStatusError status text) :
    api_post endpoint body invalidate_cache func max_retries c nowIso =
      ({ success := false, error := some e.str }, c) := by
  cases e with
  | httpStatusError status text => exact absurd rfl (hn status text)
  | timeout => simp only [api_post, h]
  | networkError => simp only [api_post, h]
  | other msg => simp only [api_post, h]

/-- C7 counterexample: the error envelope `api_get` returns for a plain 404
failure carries no `timestamp` field at all, and its `error` field is the
flat string `"HTTP 404"` rather than a structured
`{ kind, message, details }` object. -/
theorem error_envelope_shape_cex :
    (api_get "/users/999" false
        (fun _ => .error (.httpStatusError 404 "Not Found")) 3
        ⟨300, [], []⟩ 0 "2024-01-01T00:00:00").1.timestamp = none ∧
    (api_get "/users/999" false
        (fun _ => .error (.httpStatusError 404 "Not Found")) 3
        ⟨300, [], []⟩ 0 "2024-01-01T00:00:00").1.error =
      some "HTTP 404" := by
  exact ⟨rfl, rfl⟩

/-- C7 (amended): every error envelope returned by `api_get` or `api_post`
has `success = false`, an `error` field that is a flat string (for HTTP
failures `"HTTP <status>"` together with the response text under `message`),
and no `data`; `api_get` error envelopes carry the `endpoint`, `api_post`
error envelopes carry no `endpoint` field, and neither carries a
`timestamp`. -/
theorem error_envelope_shape (endpoint : String) (use_cache : Bool)
    (body : JsonV) (invalidate_cache : Bool)
    (func : Nat → Except PyErr JsonV) (max_retries : Nat) (c : SimpleCache)
    (now : Rat) (nowIso : String) :
    ((api_get endpoint use_cache func max_retries c now nowIso).1.success
        = false →
      (api_get endpoint use_cache func max_retries c now
          nowIso).1.error.isSome = true ∧
      (api_get endpoint use_cache func max_retries c now nowIso).1.endpoint
        = some endpoint ∧
      (api_get endpoint use_cache func max_retries c now nowIso).1.timestamp
        = none ∧
      (api_get endpoint use_cache func max_retries c now nowIso).1.data
        = none) ∧
    ((api_post endpoint body invalidate_cache func max_retries c
        nowIso).1.success = false →
      (api_post endpoint body invalidate_cache func max_retries c
          nowIso).1.error.isSome = true ∧
      (api_post endpoint body invalidate_cache func max_retries c
          nowIso).1.endpoint = none ∧
      (api_post endpoint body invalidate_cache func max_retries c
          nowIso).1.timestamp = none ∧
      (api_post endpoint body invalidate_cache func max_retries c
          nowIso).1.data = none) := by
  constructor
  · intro hfalse
    have herror :
        ∀ c2 : SimpleCache,
          (apiGetLive endpoint use_cache func max_retries c2 now
              nowIso).1.success = false →
          (apiGetLive endpoint use_cache func max_retries c2 now
              nowIso).1.error.isSome = true ∧
          (apiGetLive endpoint use_cache func max_retries c2 now
              nowIso).1.endpoint = some endpoint ∧
          (apiGetLive endpoint use_cache func max_retries c2 now
              nowIso).1.timestamp = none ∧
          (apiGetLive endpoint use_cache func max_retries c2 now
              nowIso).1.data = none := by
      intro c2 hf2
      cases hres : (retry_with_backoff func max_retries 1 2).result with
      | ok v =>
        rw [apiGetLive_ok endpoint use_cache c2 now nowIso hres] at hf2
        exact absurd hf2 (by simp)
      | error e =>
        cases e with
        | httpStatusError status text =>
          rw [apiGetLive_err_http endpoint use_cache c2 now nowIso hres]
          exact ⟨rfl, rfl, rfl, rfl⟩
        | timeout =>
          rw [apiGetLive_err_nonhttp endpoint use_cache c2 now nowIso hres
            (fun _ _ h => PyErr.noConfusion h)]
          exact ⟨rfl, rfl, rfl, rfl⟩
        | networkError =>
          rw [apiGetLive_err_nonhttp endpoint use_cache c2 now nowIso hres
            (fun _ _ h => PyErr.noConfusion h)]
          exact ⟨rfl, rfl, rfl, rfl⟩
        | other msg =>
          rw [apiGetLive_err_nonhttp endpoint use_cache c2 now nowIso hres
            (fun _ _ h => PyErr.noConfusion h)]
          exact ⟨rfl, rfl, rfl, rfl⟩
    cases use_cache with
    | false =>
      rw [api_get_no_cache] at hfalse ⊢
      exact herror c hfalse
    | true =>
      cases hprobe : pyTruthyOpt (c.get ("GET:" ++ endpoint) now).1 with
      | true =>
        rw [api_get_cache_hit nowIso hprobe] at hfalse
        exact absurd hfalse (by simp)
      | false =>
        rw [api_get_cache_miss nowIso hprobe] at hfalse ⊢
        exact herror (c.get ("GET:" ++ endpoint) now).2 hfalse
  · intro hfalse
    cases hres : (retry_with_backoff func max_retries 1 2).result with
    | ok v =>
      rw [api_post_ok endpoint body invalidate_cache c nowIso hres]
        at hfalse
      exact absurd hfalse (by simp)
    | error e =>
      cases e with
      | httpStatusError status text =>
        rw [api_post_err_http endpoint body invalidate_cache c nowIso hres]
        exact ⟨rfl, rfl, rfl, rfl⟩
      | timeout =>
        rw [api_post_err_nonhttp endpoint body invalidate_cache c nowIso
          hres (fun _ _ h => PyErr.noConfusion h)]
        exact ⟨rfl, rfl, rfl, rfl⟩
      | networkError =>
        rw [api_post_err_nonhttp endpoint body invalidate_cache c nowIso
          hres (fun _ _ h => PyErr.noConfusion h)]
        exact ⟨rfl, rfl, rfl, rfl⟩
      | other msg =>
        rw [api_post_err_nonhttp endpoint body invalidate_cache c nowIso
          hres (fun _ _ h => PyErr.noConfusion h)]
        exact ⟨rfl, rfl, rfl, rfl⟩

/-- Witness for C7 (amended): concrete 404 failures of `api_get` and
`api_post` yield envelopes with a string error, no timestamp, no data, and
an `endpoint` field only on the `api_get` side. -/
theorem error_envelope_shape_witness :
    (api_get "/users/7" false
        (fun _ => .error (.httpStatusError 404 "missing")) 3
        ⟨300, [], []⟩ 0 "T").1.error.isSome = true ∧
    (api_get "/users/7" false
        (fun _ => .error (.httpStatusError 404 "missing")) 3
        ⟨300, [], []⟩ 0 "T").1.endpoint = some "/users/7" ∧
    (api_get "/users/7" false
        (fun _ => .error (.httpStatusError 404 "missing")) 3
        ⟨300, [], []⟩ 0 "T").1.timestamp = none ∧
    (api_post "/users/7" .null true
        (fun _ => .error (.httpStatusError 404 "missing")) 3
        ⟨300, [], []⟩ "T").1.endpoint = none ∧
    (api_post "/users/7" .null true
        (fun _ => .error (.httpStatusError 404 "missing")) 3
        ⟨300, [], []⟩ "T").1.timestamp = none := by
  have h := error_envelope_shape "/users/7" false .null true
    (fun _ => .error (.httpStatusError 404 "missing")) 3 ⟨300, [], []⟩ 0 "T"
  have hget := h.1 rfl
  have hpost := h.2 rfl
  exact ⟨hget.1, hget.2.1, hget.2.2.1, hpost.2.1, hpost.2.2.1⟩

/-- C10: when the cache holds a fresh entry for `"GET:{endpoint}"` whose
stored value is falsy (empty object, empty list, `None`, `0`, or empty
string), `api_get` with `use_cache = true` does not take the cache-hit
branch: a live fetch is performed and a first-attempt success yields an
envelope with `from_cache = false` carrying the freshly fetched value. -/
theorem falsy_cache_value_misses (endpoint : String)
    (func : Nat → Except PyErr JsonV) (max_retries : Nat) (c : SimpleCache)
    (t now : Rat) (v w : JsonV) (nowIso : String)
    (hv : dictGet? c.cache ("GET:" ++ endpoint) = some v)
    (ht : dictGet? c.timestamps ("GET:" ++ endpoint) = some t)
    (hfresh : now - t < c.ttl) (hfalsy : v.truthy = false)
    (h1 : 1 ≤ max_retries) (hok : func 0 = .ok w) :
    (api_get endpoint true func max_retries c now nowIso).1.success
        = true ∧
    (api_get endpoint true func max_retries c now nowIso).1.from_cache
        = some false ∧
    (api_get endpoint true func max_retries c now nowIso).1.data
        = some w := by
  have hget := cache_get_fresh c ("GET:" ++ endpoint) v t now hv ht hfresh
  have hprobe : pyTruthyOpt (c.get ("GET:" ++ endpoint) now).1 = false := by
    rw [hget]
    simpa [pyTruthyOpt] using hfalsy
  rw [api_get_cache_miss nowIso hprobe]
  have hres : (retry_with_backoff func max_retries 1 2).result = .ok w := by
    obtain ⟨r, rfl⟩ : ∃ r, max_retries = r + 1 := ⟨max_retries - 1, by omega⟩
    unfold retry_with_backoff
    rw [retryLoop_step_ok hok]
  rw [apiGetLive_ok endpoint true (c.get ("GET:" ++ endpoint) now).2 now
    nowIso hres]
  exact ⟨rfl, rfl, rfl⟩

/-- Witness for C10: a fresh cache entry holding the empty object is ignored
and the live value is served with `from_cache = false`. -/
theorem falsy_cache_value_misses_witness :
    (api_get "/x" true (fun _ => .ok (.str "live")) 3
        ⟨300, [("GET:/x", .obj [])], [("GET:/x", 0)]⟩ 10 "T").1.success
        = true ∧
    (api_get "/x" true (fun _ => .ok (.str "live")) 3
        ⟨300, [("GET:/x", .obj [])], [("GET:/x", 0)]⟩ 10 "T").1.from_cache
        = some false ∧
    (api_get "/x" true (fun _ => .ok (.str "live")) 3
        ⟨300, [("GET:/x", .obj [])], [("GET:/x", 0)]⟩ 10 "T").1.data
        = some (.str "live") :=
  falsy_cache_value_misses "/x" (fun _ => .ok (.str "live")) 3
    ⟨300, [("GET:/x", .obj [])], [("GET:/x", 0)]⟩ 0 10 (.obj [])
    (.str "live") "T" rfl rfl (by norm_num) rfl (by omega) rfl

/-- C5: the batch dispatcher returns one envelope per input endpoint,
aligned index-for-index with the input sequence, with `total` the input
length, `successful` the number of success envelopes, `failed` the number of
error envelopes, and `successful + failed = total`. -/
theorem batch_alignment_and_counts (fetchOne : String → Envelope)
    (endpoints : List String) :
    (batch_api_requests fetchOne endpoints).results.length =
      endpoints.length ∧
    (∀ i : Nat, (batch_api_requests fetchOne endpoints).results[i]? =
      (endpoints[i]?).map fetchOne) ∧
    (batch_api_requests fetchOne endpoints).total = endpoints.length ∧
    (batch_api_requests fetchOne endpoints).successful =
      ((endpoints.map fetchOne).filter (fun r => r.success)).length ∧
    (batch_api_requests fetchOne endpoints).failed =
      ((endpoints.map fetchOne).filter (fun r => !r.success)).length ∧
    (batch_api_requests fetchOne endpoints).successful +
        (batch_api_requests fetchOne endpoints).failed =
      (batch_api_requests fetchOne endpoints).total := by
  refine ⟨List.length_map _ _, fun i => List.getElem?_map fetchOne endpoints i,
    rfl, rfl, rfl, ?_⟩
  show ((endpoints.map fetchOne).filter (fun r => r.success)).length +
      ((endpoints.map fetchOne).filter (fun r => !r.success)).length =
    endpoints.length
  have h := length_filter_not_add (endpoints.map fetchOne)
    (fun r => r.success)
  have h2 : (endpoints.map fetchOne).length = endpoints.length :=
    List.length_map _ _
  omega

end ApiClientPattern
